import Mathlib

/-!
Verification of the catalogue-build / catalogue-replay / document-acquisition
pipeline of the `mydlib` package (`traverser.py`, `libgenget.py`).

Strings are modelled as `List Char`; Python string operations used by the code
(`str.replace(old, '')`, `in` (substring containment), `str.split('/')`,
`'/'.join`, `str.lower`, `str.isdigit` filtering, `int(...)`) are embedded as
executable Lean functions with matching semantics on the inputs the code feeds
them.
-/

namespace Mydlib

abbrev Str := List Char

/-- Python `s.replace(pat, '')` (leftmost, non-overlapping, repeated), via a
fuel argument equal to the length of `s` so that the definition is structural
and kernel-reducible.  `pat = ''` is the identity, as in Python when the
replacement is also empty. -/
def removeAllAux (pat : Str) : Nat → Str → Str
  | _, [] => []
  | 0, s => s
  | fuel+1, c :: rest =>
    if pat.isPrefixOf (c :: rest) then removeAllAux pat fuel (List.drop pat.length (c :: rest))
    else c :: removeAllAux pat fuel rest

/-- Python `s.replace(pat, '')`. -/
def removeAll (pat s : Str) : Str :=
  if pat = [] then s else removeAllAux pat s.length s

/-- Python `pat in s` (substring containment). -/
def isSubstring (pat s : Str) : Bool :=
  s.tails.any (fun t => pat.isPrefixOf t)

/-- `line.replace(path,'').replace('/','')` from `create_catalogue_txt`. -/
def stripLine (path l : Str) : Str :=
  removeAll [ '/' ] (removeAll path l)

/-- Python `'.' in line`. -/
def containsDot (l : Str) : Bool := l.contains '.'

/-- One catalogue entry `(path, [], files)` as produced by
`create_catalogue_txt` / consumed by `traverse_catalogue`. -/
structure Entry where
  path : Str
  markers : List Str
  files : List Str
deriving DecidableEq

abbrev Catalogue := List Entry

/-- The synthetic root `'./'` used by `create_catalogue_txt` when the first
line is a file line. -/
def stdRoot : Str := "./".toList

/-- The loop of `create_catalogue_txt` from the second line on: `path` and
`files` are the running `path` / `files` variables; a file line (contains a
dot) is stripped of the current path and of slashes and appended to `files`;
a directory line closes the current entry and starts a new one; the final
entry is closed when the input ends. -/
def txtLoop (path : Str) (files : List Str) : List Str → Catalogue
  | [] => [⟨path, [], files⟩]
  | l :: rest =>
    if containsDot l then txtLoop path (files ++ [stripLine path l]) rest
    else ⟨path, [], files⟩ :: txtLoop l [] rest

/-- `create_catalogue_txt` of `traverser.py` on its (newline-stripped) input
lines: the first line sets the root — synthetic root `'./'` with the raw line
recorded as a file when the line contains a dot, the line itself as root path
otherwise — and the remaining lines run through the loop. -/
def create_catalogue_txt : List Str → Catalogue
  | [] => [⟨[], [], []⟩]
  | l :: rest =>
    if containsDot l then txtLoop stdRoot [l] rest
    else txtLoop l [] rest

/-! ### CatalogueStore (`dump_file` / `load_file`, traverser.py lines 5-10)

The store pickles the catalogue to a file and unpickles it back.  The pickle
library is not part of this repository, so its serialization of the catalogue
(a list of `(str, list, list-of-str)` tuples) is modelled as an explicit
injective token encoding: every string and every list is length-prefixed.
`dump_file` writes the encoding into a file store (a map from file names to
token streams); `load_file` reads a file and decodes it. -/

inductive Tok where
  | ch : Char → Tok
  | num : Nat → Tok
deriving DecidableEq

def encStr (s : Str) : List Tok :=
  Tok.num s.length :: s.map Tok.ch

def encStrList (l : List Str) : List Tok :=
  Tok.num l.length :: (l.map encStr).flatten

def encEntry (e : Entry) : List Tok :=
  encStr e.path ++ encStrList e.markers ++ encStrList e.files

def pickleCat (c : Catalogue) : List Tok :=
  Tok.num c.length :: (c.map encEntry).flatten

def decChars : Nat → List Tok → Option (Str × List Tok)
  | 0, ts => some ([], ts)
  | n+1, Tok.ch c :: ts => (decChars n ts).map (fun p => (c :: p.1, p.2))
  | _+1, _ => none

def decStr : List Tok → Option (Str × List Tok)
  | Tok.num n :: ts => decChars n ts
  | _ => none

def decStrs : Nat → List Tok → Option (List Str × List Tok)
  | 0, ts => some ([], ts)
  | n+1, ts => (decStr ts).bind fun p => (decStrs n p.2).map fun q => (p.1 :: q.1, q.2)

def decStrList : List Tok → Option (List Str × List Tok)
  | Tok.num n :: ts => decStrs n ts
  | _ => none

def decEntry (ts : List Tok) : Option (Entry × List Tok) :=
  (decStr ts).bind fun p =>
    (decStrList p.2).bind fun q =>
      (decStrList q.2).map fun r => (⟨p.1, q.1, r.1⟩, r.2)

def decEntries : Nat → List Tok → Option (Catalogue × List Tok)
  | 0, ts => some ([], ts)
  | n+1, ts => (decEntry ts).bind fun p => (decEntries n p.2).map fun q => (p.1 :: q.1, q.2)

def unpickleCat : List Tok → Option Catalogue
  | Tok.num n :: ts => (decEntries n ts).map (fun p => p.1)
  | _ => none

/-- A file store: file name to stored token stream. -/
def FileStore := Str → Option (List Tok)

/-- `dump_file(obj, file_name)`: write the pickled catalogue under
`file_name`. -/
def dump_file (obj : Catalogue) (file_name : Str) (fs : FileStore) : FileStore :=
  fun n => if n = file_name then some (pickleCat obj) else fs n

/-- `load_file(file_name)`: read the file and unpickle it (`none` when the
file is absent or its content does not decode to a catalogue). -/
def load_file (file_name : Str) (fs : FileStore) : Option Catalogue :=
  (fs file_name).bind unpickleCat

/-! ### RecordExtractor (`get_info`, libgenget.py lines 4-48)

A search-result row is a list of `<td>` cells; each cell has a text and,
possibly, an anchor href (the trailing mirror-link cells).  Python errors are
made explicit: an out-of-range index raises `IndexError`, subscripting the
missing anchor of a link cell raises `TypeError`. -/

inductive PyErr where
  | indexError
  | typeError
  | valueError
deriving DecidableEq

structure Cell where
  text : Str
  href : Option Str
deriving DecidableEq

/-- Python `l[i]` for a non-negative index: `IndexError` out of range. -/
def pyGet (l : List α) (i : Nat) : Except PyErr α :=
  match l.get? i with
  | some x => Except.ok x
  | none => Except.error PyErr.indexError

/-- Decimal value of a digit string (the value `int` returns on an all-digit
string). -/
def natOfDigits (s : Str) : Nat :=
  s.foldl (fun a c => a * 10 + (c.toNat - '0'.toNat)) 0

/-- Python `int(s)` restricted to the strings this code ever passes it
(outputs of an `isdigit` filter): succeeds exactly on non-empty all-digit
strings. -/
def pyInt (s : Str) : Option Nat :=
  if s ≠ [] ∧ s.all Char.isDigit then some (natOfDigits s) else none

/-- Lines 24-30 of libgenget.py: `''.join(filter(str.isdigit, text))`, then
`int(...)` with the exception handler defaulting to 0. -/
def pages_of (raw : Str) : Nat :=
  match pyInt (raw.filter Char.isDigit) with
  | some n => n
  | none => 0

/-- `[x.a['href'] for x in temp[9:-1]]`: each trailing cell must carry an
anchor (`x.a` is `None` otherwise and subscripting it raises `TypeError`). -/
def extractLinks : List Cell → Except PyErr (List Str)
  | [] => Except.ok []
  | c :: rest =>
    match c.href with
    | none => Except.error PyErr.typeError
    | some h =>
      match extractLinks rest with
      | Except.error e => Except.error e
      | Except.ok hs => Except.ok (h :: hs)

/-- `get_code(link) = link.split('/')[-1]`. -/
def get_code (link : Str) : Str :=
  (List.splitOn '/' link).getLastD []

/-- The fixed trusted mirror string of line 41. -/
def trustedMirror : Str := "http://93.174.95.29/_ads/".toList

/-- `get_download_page(links)`: the first link containing the trusted mirror
string (Python `in`), `None` when no link contains it. -/
def get_download_page (links : List Str) : Option Str :=
  links.find? (fun i => isSubstring trustedMirror i)

/-- The spec's wording of `downloadPageUrl` (§4.4): the first mirror link
whose literal PREFIX is the trusted mirror string.  Stated for comparison
with `get_download_page`, which the source defines by containment. -/
def get_download_page_spec (links : List Str) : Option Str :=
  links.find? (fun i => trustedMirror.isPrefixOf i)

structure Info where
  author : Str
  title : Str
  pages : Nat
  lang : Str
  size : Str
  type : Str
  links : List Str
  code : Str
  download_page : Option Str
deriving DecidableEq

/-- `get_info(res)` of libgenget.py: positional extraction of the row's
cells, page count via `pages_of`, mirror links from `temp[9:-1]`, book code
from the first link, download page by trusted-substring search. -/
def get_info (temp : List Cell) : Except PyErr Info := do
  let author ← pyGet temp 1
  let title ← pyGet temp 2
  let rawPages ← pyGet temp 5
  let lang ← pyGet temp 6
  let size ← pyGet temp 7
  let ftype ← pyGet temp 8
  let links ← extractLinks ((temp.drop 9).dropLast)
  let first ← pyGet links 0
  Except.ok
    { author := author.text
      title := title.text
      pages := pages_of rawPages.text
      lang := lang.text
      size := size.text
      type := ftype.text
      links := links
      code := get_code first
      download_page := get_download_page links }

/-! ### CandidateSelector (`to_be_downloaded`, libgenget.py lines 143-162) -/

/-- The key `comparing(x) = x['pages']` of line 144. -/
def comparing (x : Info) : Nat := x.pages

/-- Python `max(iterable, key=key)` on a non-empty list: a linear scan that
replaces the current best only on a strictly larger key, so ties keep the
first-encountered element. -/
def pyMaxBy (key : α → Nat) (x : α) (xs : List α) : α :=
  xs.foldl (fun best y => if key best < key y then y else best) x

/-- Python `l[i]` with negative-index wrap-around, as used by
`infos[int(i)-1]` in the interactive branch. -/
def pyIdx (l : List α) (i : Int) : Except PyErr α :=
  if 0 ≤ i then pyGet l i.toNat
  else if 0 ≤ (l.length : Int) + i then pyGet l ((l.length : Int) + i).toNat
  else Except.error PyErr.indexError

/-- `to_be_downloaded(infos)`: automatic mode returns the single
`max(infos, key=comparing)` record (`ValueError` on an empty list, as
Python's `max` raises); interactive mode indexes `infos` with each operator
selection minus one. -/
def to_be_downloaded (auto : Bool) (selection : List Int) (infos : List Info) :
    Except PyErr (List Info) :=
  if auto then
    match infos with
    | [] => Except.error PyErr.valueError
    | x :: xs => Except.ok [pyMaxBy comparing x xs]
  else
    (selection.mapM (fun i => pyIdx infos (i - 1)))

/-! ### Destination naming (`download`, libgenget.py lines 169-183) -/

/-- Python `str.lower` on ASCII letters. -/
def pyLower (c : Char) : Char :=
  if 'A' ≤ c ∧ c ≤ 'Z' then Char.ofNat (c.toNat + 32) else c

def lowerStr (s : Str) : Str := s.map pyLower

/-- The per-record loop of `download`, projected to the destination file name
each `retrieve` call receives: `file_name` is recomputed as
`title + type.lower()` only when it is the empty string, and is otherwise
kept from the previous iteration. -/
def download_names : List Info → Str → List Str
  | [], _ => []
  | f :: rest, file_name =>
    let fn := if file_name = [] then f.title ++ lowerStr f.type else file_name
    fn :: download_names rest fn

/-- The deterministic exceptions of the loop body: `get_download_link(None)`
calls `requests.get(None)`, which raises `MissingSchema`; `retrieve` with the
empty file name hits `open('','wb')`, which raises `FileNotFoundError`. -/
inductive DlErr where
  | missingSchema
  | fileNotFound
deriving DecidableEq

/-- The per-record loop of `download` (libgenget.py lines 170-183) with its
deterministic error paths: each iteration first resolves the download link
(`get_download_link(final['download_page'])`, which raises when the record
has no download page), then recomputes the destination name only when
`file_name` is the empty string, then `retrieve` opens the destination
(`open('','wb')` raises on the empty name) and streams to it.  An exception
aborts the loop: later records are not streamed.  The result is the ordered
list of destination names actually streamed to, and the aborting error, if
any.  Network transport on a present download page is assumed to succeed —
transport failures are external nondeterminism, not decided by the record. -/
def download_loop : List Info → Str → List Str × Option DlErr
  | [], _ => ([], none)
  | f :: rest, file_name =>
    match f.download_page with
    | none => ([], some DlErr.missingSchema)
    | some _ =>
      let fn := if file_name = [] then f.title ++ lowerStr f.type else file_name
      if fn = [] then ([], some DlErr.fileNotFound)
      else
        let next := download_loop rest fn
        (fn :: next.1, next.2)

/-! ### CatalogueReplayer (`traverse_catalogue`, traverser.py lines 97-122)

Replay is modelled as the sequence of side effects it performs (`mkdir` and
per-file action invocations) together with the error, if any, that stops it.
Operations performed before an error are kept, so "no side effect before the
guard" is visible in the result. -/

inductive Op where
  | mkdir : Str → Op
  | action : Str → Op
deriving DecidableEq

/-- `'/'.join(...)`. -/
def joinSlash (l : List Str) : Str := List.intercalate [ '/' ] l

/-- `os.path.join(a, b)` for relative-or-absolute `b`. -/
def ospath_join (a b : Str) : Str :=
  if b.head? = some '/' then b
  else if a = [] then b
  else if a.getLast? = some '/' then a ++ b
  else a ++ '/' :: b

/-- The entry loop of `traverse_catalogue`: strip `replace_path` from the
entry's path, drop one leading slash (`path_[0]` raises `IndexError` when the
stripped path is empty), `mkdir` the directory, and invoke the per-file
action on each joined file path. -/
def traverseLoop (replace_path : Str) : Catalogue → List Op × Option PyErr
  | [] => ([], none)
  | e :: rest =>
    match removeAll replace_path e.path with
    | [] => ([], some PyErr.indexError)
    | c :: cs =>
      let p := if c = '/' then cs else c :: cs
      let ops := Op.mkdir p :: e.files.map (fun f => Op.action (ospath_join p f))
      let next := traverseLoop replace_path rest
      (ops ++ next.1, next.2)

/-- `traverse_catalogue(file_name, action_function)`: `ValueError` when the
catalogue file is missing (`stored = none`); `catalogue[0]` raises on an
empty catalogue; `base_dir` is the last `/`-segment of the first entry's path
and `replace_path` the joined leading segments (empty for a single-segment
path); `ValueError` before any operation when a directory named `base_dir`
already exists; otherwise the entry loop runs. -/
def traverse_catalogue (dirs : List Str) (stored : Option Catalogue) :
    List Op × Option PyErr :=
  match stored with
  | none => ([], some PyErr.valueError)
  | some catalogue =>
    match catalogue.head? with
    | none => ([], some PyErr.indexError)
    | some e0 =>
      let segs := List.splitOn '/' e0.path
      let rb :=
        if segs.length ≤ 1 then (([] : Str), segs.getLastD [])
        else (joinSlash segs.dropLast, segs.getLastD [])
      if dirs.contains rb.2 then ([], some PyErr.valueError)
      else traverseLoop rb.1 catalogue

/-! ### Concrete inputs used by the claims -/

/-- The four-line text listing of the parse example. -/
def exampleLines : List Str :=
  ["books".toList, "books/a.pdf".toList, "books/sub".toList, "books/sub/b.pdf".toList]

def mkInfo (title type : Str) (pages : Nat) : Info :=
  { author := [], title := title, pages := pages, lang := [], size := [],
    type := type, links := [], code := [], download_page := none }

def rec100 : Info := mkInfo "first".toList "pdf".toList 100
def rec353a : Info := mkInfo "second".toList "pdf".toList 353
def rec353b : Info := mkInfo "third".toList "pdf".toList 353
def rec40 : Info := mkInfo "fourth".toList "pdf".toList 40

def exampleRecord : Info := mkInfo "Example Book".toList "PDF".toList 353

/-- A mirror link containing the trusted mirror string not at position 0. -/
def embeddedLink : Str :=
  "http://evil.example/?u=http://93.174.95.29/_ads/x".toList

/-- A well-formed 11-cell row: cells 1-8 carry field texts, cell 9 is the one
mirror-link cell (`temp[9:-1]`), cell 10 is the trailing cell the slice
drops. -/
def cellT (t : String) : Cell := ⟨t.toList, none⟩

def cellL (t : String) (h : String) : Cell := ⟨t.toList, some h.toList⟩

def exampleRow : List Cell :=
  [cellT "id", cellT "Au", cellT "Ti", cellT "Pub", cellT "Year",
   cellT "353 p.", cellT "en", cellT "3 Mb", cellT "pdf",
   cellL "m1" "http://93.174.95.29/_ads/abc/code1", cellT "edit"]

/-- The same row truncated to its first 10 cells: all positionally required
fields exist, but `temp[9:-1]` is empty, so `links` is empty. -/
def exampleRow10 : List Cell := exampleRow.take 10

end Mydlib

deriving instance DecidableEq for Except

namespace Mydlib

/-! ## Store round-trip -/

theorem decChars_enc (s : Str) (r : List Tok) :
    decChars s.length (s.map Tok.ch ++ r) = some (s, r) := by
  induction s with
  | nil => rfl
  | cons c cs ih => simp [decChars, ih]

theorem decStr_enc (s : Str) (r : List Tok) :
    decStr (encStr s ++ r) = some (s, r) := by
  simp [encStr, decStr, decChars_enc]

theorem decStrs_enc (l : List Str) (r : List Tok) :
    decStrs l.length ((l.map encStr).flatten ++ r) = some (l, r) := by
  induction l generalizing r with
  | nil => rfl
  | cons x xs ih => simp [decStrs, decStr_enc, ih]

theorem decStrList_enc (l : List Str) (r : List Tok) :
    decStrList (encStrList l ++ r) = some (l, r) := by
  simp [encStrList, decStrList, decStrs_enc]

theorem decEntry_enc (e : Entry) (r : List Tok) :
    decEntry (encEntry e ++ r) = some (e, r) := by
  simp [encEntry, decEntry, decStr_enc, decStrList_enc]

theorem decEntries_enc (c : Catalogue) (r : List Tok) :
    decEntries c.length ((c.map encEntry).flatten ++ r) = some (c, r) := by
  induction c generalizing r with
  | nil => rfl
  | cons e es ih => simp [decEntries, decEntry_enc, ih]

theorem unpickle_pickle (c : Catalogue) : unpickleCat (pickleCat c) = some c := by
  have h := decEntries_enc c []
  simp only [List.append_nil] at h
  simp [pickleCat, unpickleCat, h]

/-- C1: round-trip of the catalogue store — for every catalogue `M`, loading
the file produced by persisting `M` yields the same ordered entry sequence,
empty file lists included. -/
theorem claim_C1_round_trip (M : Catalogue) (name : Str) (fs : FileStore) :
    load_file name (dump_file M name fs) = some M := by
  simp [load_file, dump_file, unpickle_pickle]

/-- C2: the text-listing parser on the four example lines produces exactly
the two entries `("books", [], ["a.pdf"])` and `("books/sub", [], ["b.pdf"])`. -/
theorem claim_C2_parse_example :
    create_catalogue_txt exampleLines =
      [⟨"books".toList, [], ["a.pdf".toList]⟩,
       ⟨"books/sub".toList, [], ["b.pdf".toList]⟩] := by
  decide

/-! ## Text-listing first-line handling -/

/-- The first entry the loop closes carries the current path and the running
files followed by the stripped file lines up to the next directory line. -/
theorem txtLoop_head (path : Str) (files : List Str) (lines : List Str) :
    (txtLoop path files lines).head? =
      some ⟨path, [], files ++ (lines.takeWhile containsDot).map (stripLine path)⟩ := by
  induction lines generalizing files with
  | nil => simp [txtLoop]
  | cons l rest ih =>
    by_cases h : containsDot l
    · rw [txtLoop, if_pos h, ih, List.takeWhile_cons, if_pos h]
      simp
    · rw [txtLoop, if_neg h, List.takeWhile_cons, if_neg h]
      simp

/-- C3 (amended): when the first line contains a dot, the parser's first
entry has the synthetic root path `'./'` and records that first line verbatim
(not stripped of a path prefix or of slashes) as its first file; when the
first line contains no dot, the first entry's path is that line and its files
are only the stripped subsequent file lines, so no file is recorded for the
first line. -/
theorem claim_C3_first_line (l : Str) (rest : List Str) :
    (containsDot l = true →
      (create_catalogue_txt (l :: rest)).head? =
        some ⟨stdRoot, [], l :: (rest.takeWhile containsDot).map (stripLine stdRoot)⟩)
    ∧ (containsDot l = false →
      (create_catalogue_txt (l :: rest)).head? =
        some ⟨l, [], (rest.takeWhile containsDot).map (stripLine l)⟩) := by
  constructor
  · intro h
    rw [create_catalogue_txt, if_pos h, txtLoop_head]
    simp
  · intro h
    rw [create_catalogue_txt, if_neg (by simp [h]), txtLoop_head]
    simp

/-- C3 counterexample: for the single first line `"a/b.pdf"` (which contains
a dot), the catalogue records the file as the raw line `"a/b.pdf"`, which
differs from the line stripped of the path prefix and of slash characters
(`"ab.pdf"`), refuting the claim's stripping of the first line. -/
theorem claim_C3_counterexample :
    create_catalogue_txt ["a/b.pdf".toList] = [⟨stdRoot, [], ["a/b.pdf".toList]⟩]
    ∧ removeAll [ '/' ] (removeAll stdRoot "a/b.pdf".toList) ≠ "a/b.pdf".toList := by
  decide

/-! ## Page-count parsing -/

/-- C4: the extracted page count is the decimal value of the raw field's
digit characters, is 0 when no digit remains, is always a non-negative
integer, and in particular maps `"353 p."` to 353, `"N/A"` to 0 and the empty
field to 0. -/
theorem claim_C4_page_count :
    (∀ raw : Str,
      pages_of raw = natOfDigits (raw.filter Char.isDigit)
      ∧ (raw.filter Char.isDigit = [] → pages_of raw = 0)
      ∧ 0 ≤ (pages_of raw : Int))
    ∧ pages_of "353 p.".toList = 353
    ∧ pages_of "N/A".toList = 0
    ∧ pages_of ([] : Str) = 0 := by
  refine ⟨fun raw => ⟨?_, fun h => ?_, Int.ofNat_nonneg _⟩, by decide, by decide, by decide⟩
  · by_cases h : raw.filter Char.isDigit = []
    · simp [pages_of, pyInt, h, natOfDigits]
    · have hall : (raw.filter Char.isDigit).all Char.isDigit = true := by
        simp only [List.all_eq_true]
        intro c hc
        exact List.of_mem_filter hc
      simp [pages_of, pyInt, h, hall]
  · simp [pages_of, pyInt, h]

/-! ## Automatic selection -/

/-- `max(iterable, key)` unfolds one step of its linear scan, replacing the
running best only on a strictly larger key. -/
theorem pyMaxBy_cons (key : α → Nat) (x y : α) (ys : List α) :
    pyMaxBy key x (y :: ys) = pyMaxBy key (if key x < key y then y else x) ys := rfl

/-- `pyMaxBy` returns the first element of the list achieving the maximum
key: every element strictly before it has a strictly smaller key, and no
element has a larger one. -/
theorem pyMaxBy_first_max (key : α → Nat) (x : α) (xs : List α) :
    ∃ pre post, x :: xs = pre ++ pyMaxBy key x xs :: post
      ∧ (∀ a ∈ pre, key a < key (pyMaxBy key x xs))
      ∧ (∀ a ∈ x :: xs, key a ≤ key (pyMaxBy key x xs)) := by
  induction xs generalizing x with
  | nil => exact ⟨[], [], rfl, by simp, by simp [pyMaxBy]⟩
  | cons y ys ih =>
    rw [pyMaxBy_cons]
    by_cases h : key x < key y
    · rw [if_pos h]
      obtain ⟨pre, post, heq, hpre, hall⟩ := ih y
      have hy : key y ≤ key (pyMaxBy key y ys) := hall y (List.mem_cons_self _ _)
      refine ⟨x :: pre, post, by rw [List.cons_append, ← heq], ?_, ?_⟩
      · intro a ha
        rcases List.mem_cons.mp ha with rfl | ha
        · exact lt_of_lt_of_le h hy
        · exact hpre a ha
      · intro a ha
        rcases List.mem_cons.mp ha with rfl | ha
        · exact le_of_lt (lt_of_lt_of_le h hy)
        · exact hall a ha
    · rw [if_neg h]
      have hyx : key y ≤ key x := le_of_not_lt h
      obtain ⟨pre, post, heq, hpre, hall⟩ := ih x
      rcases pre with _ | ⟨p, pre'⟩
      · have h2 : x = pyMaxBy key x ys ∧ ys = post := by simpa using heq
        refine ⟨[], y :: ys, by rw [List.nil_append, ← h2.1], by simp, ?_⟩
        intro a ha
        rcases List.mem_cons.mp ha with rfl | ha
        · rw [← h2.1]
        · rcases List.mem_cons.mp ha with rfl | ha
          · exact le_trans hyx (hall x (List.mem_cons_self _ _))
          · exact hall a (List.mem_cons_of_mem _ ha)
      · have h2 : x = p ∧ ys = pre' ++ pyMaxBy key x ys :: post := by simpa using heq
        have hxlt : key x < key (pyMaxBy key x ys) := by
          have hp := hpre p (List.mem_cons_self _ _)
          rwa [← h2.1] at hp
        refine ⟨x :: y :: pre', post, ?_, ?_, ?_⟩
        · simp only [List.cons_append]
          exact congrArg (fun t => x :: y :: t) h2.2
        · intro a ha
          rcases List.mem_cons.mp ha with rfl | ha
          · exact hxlt
          · rcases List.mem_cons.mp ha with rfl | ha
            · exact lt_of_le_of_lt hyx hxlt
            · refine hpre a ?_
              rw [← h2.1]
              exact List.mem_cons_of_mem _ ha
        · intro a ha
          rcases List.mem_cons.mp ha with rfl | ha
          · exact hall _ (List.mem_cons_self _ _)
          · rcases List.mem_cons.mp ha with rfl | ha
            · exact le_of_lt (lt_of_le_of_lt hyx hxlt)
            · exact hall a (List.mem_cons_of_mem _ ha)

/-- C5: on every non-empty record list the automatic policy selects exactly
one record — the first in encounter order whose page count attains the
maximum — and among page counts `[100, 353, 353, 40]` it selects the record
at index 1 (the first 353), not the tied record at index 2. -/
theorem claim_C5_auto_selection :
    (∀ (x : Info) (xs : List Info) (sel : List Int),
      ∃ r pre post, to_be_downloaded true sel (x :: xs) = Except.ok [r]
        ∧ x :: xs = pre ++ r :: post
        ∧ (∀ a ∈ pre, comparing a < comparing r)
        ∧ (∀ a ∈ x :: xs, comparing a ≤ comparing r))
    ∧ to_be_downloaded true [] [rec100, rec353a, rec353b, rec40] = Except.ok [rec353a]
    ∧ rec353a ≠ rec353b
    ∧ comparing rec353a = comparing rec353b := by
  refine ⟨?_, by decide, by decide, by decide⟩
  intro x xs sel
  obtain ⟨pre, post, heq, hpre, hall⟩ := pyMaxBy_first_max comparing x xs
  exact ⟨pyMaxBy comparing x xs, pre, post, rfl, heq, hpre, hall⟩

/-! ## Destination naming -/

/-- C6: with no explicit destination, a selected record is streamed to
`title ++ lower(fileType)` — no separator, no dot — and in particular title
`"Example Book"` with file type `"PDF"` yields `"Example Bookpdf"`. -/
theorem claim_C6_dest_name :
    (∀ f : Info, download_names [f] [] = [f.title ++ lowerStr f.type])
    ∧ download_names [exampleRecord] [] = ["Example Bookpdf".toList] := by
  exact ⟨fun f => rfl, by decide⟩

/-! ## Download-page link selection -/

/-- `find?` returns the first element satisfying the predicate: everything
before it in the list fails the predicate. -/
theorem find_first_split (p : α → Bool) (l : List α) (a : α)
    (h : l.find? p = some a) :
    p a = true ∧ ∃ pre post, l = pre ++ a :: post ∧ ∀ b ∈ pre, p b = false := by
  induction l with
  | nil => cases h
  | cons x xs ih =>
    by_cases hx : p x
    · rw [List.find?_cons_of_pos _ hx, Option.some.injEq] at h
      subst h
      exact ⟨hx, [], xs, rfl, by simp⟩
    · rw [List.find?_cons_of_neg _ hx] at h
      obtain ⟨hpa, pre, post, heq, hpre⟩ := ih h
      refine ⟨hpa, x :: pre, post, by rw [heq, List.cons_append], ?_⟩
      intro b hb
      rcases List.mem_cons.mp hb with rfl | hb
      · exact eq_false_of_ne_true hx
      · exact hpre b hb

/-- C7 (amended): `downloadPageUrl` is the first mirror link in column order
that CONTAINS the fixed trusted mirror string `"http://93.174.95.29/_ads/"`
as a substring (not necessarily as a prefix), and is `None` exactly when no
mirror link contains it. -/
theorem claim_C7_download_page (links : List Str) :
    (∀ l, get_download_page links = some l →
      isSubstring trustedMirror l = true
      ∧ ∃ pre post, links = pre ++ l :: post
          ∧ ∀ a ∈ pre, isSubstring trustedMirror a = false)
    ∧ (get_download_page links = none ↔
        ∀ a ∈ links, isSubstring trustedMirror a = false) := by
  constructor
  · intro l h
    exact find_first_split _ links l h
  · rw [get_download_page, List.find?_eq_none]
    constructor
    · intro h a ha
      exact eq_false_of_ne_true (h a ha)
    · intro h a ha
      rw [h a ha]
      exact Bool.false_ne_true

/-- C7 counterexample: a mirror link that embeds the trusted mirror string in
its query part — its prefix does not match the trusted string, the
prefix-based reading of the spec selects nothing, yet `get_download_page`
selects it. -/
theorem claim_C7_counterexample :
    get_download_page [embeddedLink] = some embeddedLink
    ∧ trustedMirror.isPrefixOf embeddedLink = false
    ∧ get_download_page_spec [embeddedLink] = none := by
  decide

/-! ## Record extraction: error behaviour -/

/-- C8 (amended): extraction raises `IndexError` whenever the row has fewer
than the 9 columns its positional fields require; for a row with at least 9
columns whose trailing mirror-link region (`temp[9:-1]`) yields a non-empty
link list, extraction returns a record without raising, whatever the
page-count cell contains (its pages field is `pages_of` of that cell's text,
never an error).  Extraction does, however, also raise when the mirror-link
region is empty — see the counterexample — because the book code reads the
first mirror link. -/
theorem claim_C8_extractor (temp : List Cell) (ls : List Str) :
    (temp.length < 9 → get_info temp = Except.error PyErr.indexError)
    ∧ (9 ≤ temp.length → extractLinks ((temp.drop 9).dropLast) = Except.ok ls →
        ls ≠ [] →
        ∃ r, get_info temp = Except.ok r
          ∧ ∀ c5, temp.get? 5 = some c5 → r.pages = pages_of c5.text) := by
  constructor
  · intro hlen
    rcases h1 : temp.get? 1 with _ | c1
    · simp [get_info, pyGet, h1, bind, Except.bind, ← List.get?_eq_getElem?]
    rcases h2 : temp.get? 2 with _ | c2
    · simp [get_info, pyGet, h1, h2, bind, Except.bind, ← List.get?_eq_getElem?]
    rcases h5 : temp.get? 5 with _ | c5
    · simp [get_info, pyGet, h1, h2, h5, bind, Except.bind, ← List.get?_eq_getElem?]
    rcases h6 : temp.get? 6 with _ | c6
    · simp [get_info, pyGet, h1, h2, h5, h6, bind, Except.bind, ← List.get?_eq_getElem?]
    rcases h7 : temp.get? 7 with _ | c7
    · simp [get_info, pyGet, h1, h2, h5, h6, h7, bind, Except.bind, ← List.get?_eq_getElem?]
    have h8 : temp.get? 8 = none := List.get?_eq_none.mpr (by omega)
    simp [get_info, pyGet, h1, h2, h5, h6, h7, h8, bind, Except.bind, ← List.get?_eq_getElem?]
  · intro hlen hext hne
    rcases h1 : temp.get? 1 with _ | c1
    · rw [List.get?_eq_none] at h1
      omega
    rcases h2 : temp.get? 2 with _ | c2
    · rw [List.get?_eq_none] at h2
      omega
    rcases h5 : temp.get? 5 with _ | c5
    · rw [List.get?_eq_none] at h5
      omega
    rcases h6 : temp.get? 6 with _ | c6
    · rw [List.get?_eq_none] at h6
      omega
    rcases h7 : temp.get? 7 with _ | c7
    · rw [List.get?_eq_none] at h7
      omega
    rcases h8 : temp.get? 8 with _ | c8
    · rw [List.get?_eq_none] at h8
      omega
    obtain ⟨l0, lrest, rfl⟩ : ∃ a as, ls = a :: as := by
      cases ls with
      | nil => exact absurd rfl hne
      | cons a as => exact ⟨a, as, rfl⟩
    refine ⟨{ author := c1.text, title := c2.text, pages := pages_of c5.text,
              lang := c6.text, size := c7.text, type := c8.text,
              links := l0 :: lrest, code := get_code l0,
              download_page := get_download_page (l0 :: lrest) }, ?_, ?_⟩
    · simp [get_info, pyGet, h1, h2, h5, h6, h7, h8, hext, bind, Except.bind,
        ← List.get?_eq_getElem?]
    · intro c5' hc5'
      exact congrArg (fun c => pages_of (Cell.text c)) (Option.some.inj hc5')

/-- C8 counterexample: a row with 10 columns — every positionally required
field (indices 1 through 8) present — whose mirror-link slice `temp[9:-1]`
is empty: the claim says extraction returns a record without raising when
`mirrorLinks` is empty, but `get_info` raises `IndexError` (reading the
first mirror link for the book code). -/
theorem claim_C8_counterexample :
    exampleRow10.length = 10
    ∧ (exampleRow10.drop 9).dropLast = []
    ∧ get_info exampleRow10 = Except.error PyErr.indexError := by
  decide

/-- C8 witness: the full 11-column example row has one mirror link, so the
amended success branch applies. -/
theorem claim_C8_witness :
    9 ≤ exampleRow.length
    ∧ extractLinks ((exampleRow.drop 9).dropLast) =
        Except.ok ["http://93.174.95.29/_ads/abc/code1".toList]
    ∧ ["http://93.174.95.29/_ads/abc/code1".toList] ≠ ([] : List Str)
    ∧ ∃ r, get_info exampleRow = Except.ok r
        ∧ ∀ c5, exampleRow.get? 5 = some c5 → r.pages = pages_of c5.text :=
  ⟨by decide, by decide, by decide,
    (claim_C8_extractor exampleRow ["http://93.174.95.29/_ads/abc/code1".toList]).2
      (by decide) (by decide) (by decide)⟩

/-! ## Replay clobber guard -/

/-- C9: when the computed base directory — the last `/`-segment of the first
entry's path — already exists in the replay target, replay stops with the
existence `ValueError` having performed no directory creation and no per-file
action: the returned operation list is empty. -/
theorem claim_C9_clobber_guard (dirs : List Str) (cat : Catalogue) (e0 : Entry)
    (h0 : cat.head? = some e0)
    (hdir : dirs.contains ((List.splitOn '/' e0.path).getLastD []) = true) :
    traverse_catalogue dirs (some cat) = ([], some PyErr.valueError) := by
  rw [traverse_catalogue, h0]
  have hdir' : ((List.splitOn '/' e0.path).getLast?.getD []) ∈ dirs := by
    simpa [List.getLastD_eq_getLast?] using hdir
  by_cases hseg : (List.splitOn '/' e0.path).length ≤ 1
  · simp [hseg, hdir']
  · simp [hseg, hdir']

/-- C9 witness: a one-entry catalogue rooted at `books` replayed into a
target that already has a `books` directory. -/
theorem claim_C9_witness :
    traverse_catalogue ["books".toList] (some [⟨"books".toList, [], ["a.pdf".toList]⟩]) =
      ([], some PyErr.valueError) :=
  claim_C9_clobber_guard ["books".toList] [⟨"books".toList, [], ["a.pdf".toList]⟩]
    ⟨"books".toList, [], ["a.pdf".toList]⟩ (by decide) (by decide)

/-! ## Destination-name reuse across the download loop -/

/-- Once `file_name` is non-empty it is never recomputed: every name the rest
of the loop streams to is that same `file_name`, whether or not the loop runs
to completion. -/
theorem download_loop_const (fn : Str) (h : fn ≠ []) :
    ∀ l : List Info, ∀ s ∈ (download_loop l fn).1, s = fn := by
  intro l
  induction l with
  | nil =>
    intro s hs
    simp [download_loop] at hs
  | cons f rest ih =>
    intro s hs
    cases hdp : f.download_page with
    | none => simp [download_loop, hdp] at hs
    | some u =>
      simp only [download_loop, hdp, if_neg h] at hs
      rcases List.mem_cons.mp hs with rfl | hs
      · rfl
      · exact ih s hs

/-- C10: in the download loop with no explicit destination, the destination
file name is computed from the first selected record — its title followed by
its lower-cased file type — and is never reset within the per-record loop:
every record the loop actually streams, the first and every later one, is
streamed to that same name, so each later download reuses and overwrites the
first record's destination file.  (A first record whose computed name is
empty never reaches a second iteration: `open('','wb')` raises and aborts the
loop with nothing streamed, so no record is ever streamed to a name other
than the first one computed.) -/
theorem claim_C10_name_never_reset (f : Info) (rest : List Info) :
    (∀ s ∈ (download_loop (f :: rest) []).1, s = f.title ++ lowerStr f.type)
    ∧ (∀ fn, fn ≠ [] → ∀ l : List Info, ∀ s ∈ (download_loop l fn).1, s = fn) := by
  constructor
  · intro s hs
    cases hdp : f.download_page with
    | none => simp [download_loop, hdp] at hs
    | some u =>
      by_cases hn : f.title ++ lowerStr f.type = []
      · simp [download_loop, hdp, hn] at hs
      · simp [download_loop, hdp, hn] at hs
        rcases hs with rfl | hs
        · rfl
        · exact download_loop_const _ hn rest s hs
  · exact fun fn h l => download_loop_const fn h l

end Mydlib
